import Mathlib

/-!
Shallow embedding of the execution polling / log-retrieval engine of
`hopsworks_common/engine/execution_engine.py` (class `ExecutionEngine`),
together with theorems settling the frozen claims about it.

Modelling conventions:
* Machine time is modelled as exact rational seconds (`ℚ`).  Backend fetch
  and existence calls are instantaneous; `time.sleep(d)` advances the
  virtual clock by `d`.
* The backend is an oracle indexed by call count: the k-th execution fetch
  yields `fetch k` (an `Except`, since the fetch may raise a backend error),
  and the k-th pairwise "stdout exists and stderr exists" query in the
  log-aggregation phase yields `bothExist k`.
* Python `while` loops become fuel-indexed structural recursion; all exit
  conditions are tested before fuel is consumed, so a fuel-exhaustion result
  (`running` / `fuelOut`) means the real loop is still iterating at that
  point of virtual time.
* Python truthiness of the optional `timeout` float is modelled exactly:
  `None` and `0` are falsy.
-/

deriving instance DecidableEq for Except

namespace ExecutionEngine

/-- An execution snapshot as returned by the backend
(`Execution` object; only the fields read by the engine are modelled).
`success` is the tri-state flag (`None`/`True`/`False` in Python). -/
structure Execution where
  id : Nat
  jobName : String
  state : String
  finalStatus : String
  success : Option Bool
  stdoutPath : Option String
  stderrPath : Option String
  deriving DecidableEq, Repr

/-! ## `_download_log`: the bounded-retry single-file download -/

/-- Outcome of one `dataset_api.download` attempt: a local path, or a
`RestAPIError` carrying the structured `errorCode` of the response body
(`none` when the body has no `errorCode` key) and the HTTP status code. -/
inductive DlOutcome where
  | ok (localPath : String)
  | err (errorCode : Option Nat) (status : Nat)
  deriving DecidableEq, Repr

/-- Result of `_download_log`: a normal return of the Python variable
`download_path` (an `Option`, since the loop can fall through with the
variable still `None`), or a propagated `RestAPIError`. -/
inductive DlResult where
  | ok (downloadPath : Option String)
  | raised (errorCode : Option Nat) (status : Nat)
  deriving DecidableEq, Repr

/-- A run of `_download_log`: its result, the number of
`dataset_api.download` attempts made, and the number of 5-second retry
sleeps performed. -/
structure DlRun where
  result : DlResult
  attempts : Nat
  sleeps : Nat
  deriving DecidableEq, Repr

/-- `max_num_retries = 12` in `_download_log`. -/
def maxNumRetries : Nat := 12

/-- The condition of the retry branch in `_download_log`:
`e.response.json().get("errorCode", "") == 110021 and
e.response.status_code == 400 and retries < max_num_retries`. -/
def retryCond (errorCode : Option Nat) (status : Nat) (retries : Nat) : Bool :=
  errorCode == some 110021 && status == 400 && decide (retries < maxNumRetries)

/-- The `while retries < max_num_retries` loop of `_download_log`.
The attempt oracle gives the outcome of the k-th download attempt; since
every earlier attempt must have failed with the transient error for the
loop to continue, the attempt index always equals `retries`.  `fuel` is a
structural bound; starting from `fuel = maxNumRetries + 1` and
`retries = 0` the `fuel = 0` branch is unreachable (it duplicates the
loop-exit return for safety). -/
def dlLoop (attempt : Nat → DlOutcome) : Nat → Nat → DlRun
  | 0, retries => ⟨.ok none, retries, retries⟩
  | fuel + 1, retries =>
    if retries < maxNumRetries then
      match attempt retries with
      | .ok p => ⟨.ok (some p), retries + 1, retries⟩
      | .err c s =>
        if retryCond c s retries then
          dlLoop attempt fuel (retries + 1)
        else ⟨.raised c s, retries + 1, retries⟩
    else ⟨.ok none, retries, retries⟩

/-- `ExecutionEngine._download_log` (the local download directory and the
remote path are abstracted into the attempt oracle). -/
def download_log (attempt : Nat → DlOutcome) : DlRun :=
  dlLoop attempt (maxNumRetries + 1) 0

/-! ## `download_logs` -/

/-- Exceptions surfaced by `download_logs`: the explicit
`JobExecutionException` raised on a missing caller-supplied path, or a
`RestAPIError` propagated from `_download_log`. -/
inductive DLExc where
  | jobExecutionException (msg : String)
  | restAPIError (errorCode : Option Nat) (status : Nat)
  deriving DecidableEq, Repr

/-- Environment of a `download_logs` call: the local filesystem existence
test (`os.path.exists`), the working directory (`os.getcwd()`), the random
16-character uuid fragment, the remote existence query
(`dataset_api.exists`), and per-remote-path download attempt oracles
(`dataset_api.download`, indexed by attempt number). -/
structure DlEnv where
  localExists : String → Bool
  cwd : String
  uuid16 : String
  remoteExists : String → Bool
  attempt : String → Nat → DlOutcome

/-- A run of `download_logs`: its result (the `(out_path, err_path)` pair
or a raised exception) and the number of network calls made (remote
existence queries plus download attempts). -/
structure DLRun where
  result : Except DLExc (Option String × Option String)
  networkCalls : Nat
  deriving DecidableEq, Repr

/-- One side (stdout or stderr) of `download_logs`:
`if side_path is not None and dataset_api.exists(side_path): side = _download_log(...)`.
Returns the local path for that side and the number of network calls the
side performed. -/
def downloadSide (env : DlEnv) (sidePath : Option String) :
    Except DLExc (Option String) × Nat :=
  match sidePath with
  | none => (.ok none, 0)
  | some p =>
    if env.remoteExists p then
      let run := download_log (env.attempt p)
      match run.result with
      | .ok dp => (.ok dp, 1 + run.attempts)
      | .raised c s => (.error (.restAPIError c s), 1 + run.attempts)
    else (.ok none, 1)

/-- The unique per-call log directory name
`"logs-job-{}-exec-{}_{}".format(job_name, id, uuid)` joined to the base
path. -/
def downloadLogDir (env : DlEnv) (ex : Execution) (base : String) : String :=
  base ++ "/" ++ "logs-job-" ++ ex.jobName ++ "-exec-" ++ toString ex.id
    ++ "_" ++ env.uuid16

/-- The initial argument check of `download_logs`:
`if path is not None and not os.path.exists(path): raise ...`
`elif path is None: path = os.getcwd()`. -/
def resolveBasePath (env : DlEnv) (path : Option String) :
    Except DLExc String :=
  match path with
  | some p =>
    if env.localExists p then .ok p
    else .error (.jobExecutionException ("Path " ++ p ++ " does not exist"))
  | none => .ok env.cwd

/-- The body of `download_logs` after the base path is resolved: handle
the stdout side, then the stderr side. -/
def downloadBoth (env : DlEnv) (ex : Execution) : DLRun :=
  match downloadSide env ex.stdoutPath with
  | (.error e, n1) => ⟨.error e, n1⟩
  | (.ok outPath, n1) =>
    match downloadSide env ex.stderrPath with
    | (.error e, n2) => ⟨.error e, n1 + n2⟩
    | (.ok errPath, n2) => ⟨.ok (outPath, errPath), n1 + n2⟩

/-- `ExecutionEngine.download_logs`.  The `os.mkdir` side effect and the
synthesized local directory (`downloadLogDir`) are local bookkeeping and
do not feed back into the modelled result (the attempt oracle carries the
local path a successful download yields).  The returned run counts every
`dataset_api` call as one network call. -/
def download_logs (env : DlEnv) (ex : Execution) (path : Option String) :
    DLRun :=
  match resolveBasePath env path with
  | .error e => ⟨.error e, 0⟩
  | .ok _ => downloadBoth env ex

/-! ## `wait_until_finished` -/

/-- Environment of a `wait_until_finished` call.  `fetch k` is the k-th
`execution_api._get(job, execution.id)` call (it may raise a backend
error, modelled as a `String` payload); `bothExist k` is the k-th
evaluation of
`dataset_api.exists(stdout_path) and dataset_api.exists(stderr_path)`
in the log-aggregation phase (index `0` is the evaluation made right
after `success` resolves). -/
structure WaitEnv where
  fetch : Nat → Except String Execution
  bothExist : Nat → Bool

/-- An environment whose fetches never raise. -/
def pureEnv (f : Nat → Execution) (bx : Nat → Bool) : WaitEnv :=
  ⟨fun k => .ok (f k), bx⟩

/-- `MAX_LAG = 3.0`, the poll interval in seconds. -/
def MAX_LAG : ℚ := 3

/-- The timeout test `timeout and timeout <= passed() + MAX_LAG`, with
Python truthiness: `None` and `0` are falsy, so the comparison is never
reached for them. -/
def timeoutGuard (timeout : Option ℚ) (elapsed : ℚ) : Bool :=
  match timeout with
  | none => false
  | some t => !decide (t = 0) && decide (t ≤ elapsed + MAX_LAG)

/-- State of the main polling loop: the latest fetched snapshot
(`updated_execution`), the previous poll's `state` field
(`execution_state`, initially Python `None`), the virtual elapsed time
(`passed()`), the index of the next fetch call, and the `state` values of
the progress messages emitted so far, in order. -/
structure LoopSt where
  cur : Execution
  prevState : Option String
  elapsed : ℚ
  nextFetch : Nat
  msgs : List String
  deriving DecidableEq, Repr

/-- Outcome of the main `while updated_execution.success is None` loop:
a propagated fetch error, fuel exhaustion (the real loop is still
iterating), the timeout early return, or resolution of `success`. -/
inductive MainOut where
  | raised (e : String)
  | running (st : LoopSt)
  | timedOut (st : LoopSt)
  | resolved (st : LoopSt)
  deriving DecidableEq, Repr

/-- One step of message bookkeeping:
`if execution_state != updated_execution.state:` emit a progress message
(recorded by its `state` value; the wording additionally shows
`final_status` for Spark/PySpark/Flink jobs, which does not affect
emission). -/
def pushMsg (prevState : Option String) (msgs : List String)
    (newState : String) : List String :=
  if prevState ≠ some newState then msgs ++ [newState] else msgs

/-- One iteration of the main loop body after the re-fetch produced
`ex`: the clock has advanced by the sleep, the snapshot and
`execution_state` are updated, and the progress message is recorded on a
state change. -/
def stepSt (st : LoopSt) (ex : Execution) : LoopSt :=
  ⟨ex, some ex.state, st.elapsed + MAX_LAG, st.nextFetch + 1,
    pushMsg st.prevState st.msgs ex.state⟩

/-- The main polling loop of `wait_until_finished`.  Loop body order as
in the source: test `success is None`; test the timeout guard (returning
the current snapshot when it fires); `time.sleep(MAX_LAG)`; re-fetch;
emit the progress message on a state change; update `execution_state`.
All exits are tested before fuel is consumed. -/
def waitLoop (env : WaitEnv) (timeout : Option ℚ) :
    Nat → LoopSt → MainOut
  | fuel, st =>
    if st.cur.success.isSome then .resolved st
    else if timeoutGuard timeout st.elapsed then .timedOut st
    else
      match fuel with
      | 0 => .running st
      | fuel + 1 =>
        match env.fetch st.nextFetch with
        | .error e => .raised e
        | .ok ex => waitLoop env timeout fuel (stepSt st ex)

/-- State of the log-aggregation wait loop: latest snapshot, elapsed
time, next fetch index, next `bothExist` query index, and the number of
loop iterations executed. -/
structure LogSt where
  cur : Execution
  elapsed : ℚ
  nextFetch : Nat
  nextExist : Nat
  iters : Nat
  deriving DecidableEq, Repr

/-- Outcome of the log-aggregation wait loop. -/
inductive LogOut where
  | raised (e : String)
  | running (st : LogSt)
  | done (st : LogSt)
  deriving DecidableEq, Repr

/-- One iteration of the log-wait loop body after the re-fetch produced
`ex`. -/
def logStepSt (st : LogSt) (ex : Execution) : LogSt :=
  ⟨ex, st.elapsed + MAX_LAG, st.nextFetch + 1, st.nextExist + 1,
    st.iters + 1⟩

/-- The `while not log_aggregation_files_exist and await_time >= 0` loop.
Loop body order as in the source: test the loop condition; test the
timeout guard (`break`); `await_time -= MAX_LAG`; `time.sleep(MAX_LAG)`;
re-fetch; re-evaluate the pairwise existence query. -/
def logLoop (env : WaitEnv) (timeout : Option ℚ) :
    Nat → ℚ → Bool → LogSt → LogOut
  | fuel, awaitTime, filesExist, st =>
    if filesExist || decide (awaitTime < 0) then .done st
    else if timeoutGuard timeout st.elapsed then .done st
    else
      match fuel with
      | 0 => .running st
      | fuel + 1 =>
        match env.fetch st.nextFetch with
        | .error e => .raised e
        | .ok ex =>
          logLoop env timeout fuel (awaitTime - MAX_LAG)
            (env.bothExist st.nextExist) (logStepSt st ex)

/-- The guard of the final settle sleep:
`if not timeout or timeout > passed() + 5` (again with Python
truthiness: `not timeout` is true for `None` and for `0`). -/
def settleCond (timeout : Option ℚ) (elapsed : ℚ) : Bool :=
  match timeout with
  | none => true
  | some t => decide (t = 0) || decide (elapsed + 5 < t)

/-- A completed `wait_until_finished` call: the returned snapshot, the
virtual elapsed time at return, the elapsed time when the log-aggregation
wait ended (equal to `elapsed` on the timeout return path), whether the
call returned through the timeout branch, the progress-message record,
the number of log-wait iterations, whether the extra 5-second settle
sleep happened, and the total number of execution fetches. -/
structure WaitResult where
  result : Execution
  elapsed : ℚ
  elapsedAtLogDone : ℚ
  timedOut : Bool
  msgs : List String
  logIters : Nat
  settleSlept : Bool
  fetchCount : Nat
  deriving DecidableEq, Repr

/-- Outcome of `wait_until_finished`: a propagated backend error, fuel
exhaustion, or a normal return. -/
inductive WaitOut where
  | raised (e : String)
  | fuelOut
  | ret (r : WaitResult)
  deriving DecidableEq, Repr

/-- The initial main-loop state after the initial fetch produced `e0`:
`execution_state = None`, no time has passed, fetch index 0 is consumed,
no messages emitted. -/
def initSt (e0 : Execution) : LoopSt := ⟨e0, none, 0, 1, []⟩

/-- The post-resolution phase of `wait_until_finished`, entered with the
main-loop state `st` at the moment `success` resolved: evaluate
`log_aggregation_files_exist` / `log_aggregation_files_exist_already`,
run the log-aggregation wait loop with `await_time = 6 * 60.0`, then
perform the conditional 5-second settle sleep and return
`updated_execution`. -/
def afterResolve (env : WaitEnv) (timeout : Option ℚ) (fuel : Nat)
    (st : LoopSt) : WaitOut :=
  match logLoop env timeout fuel (6 * 60) (env.bothExist 0)
      ⟨st.cur, st.elapsed, st.nextFetch, 1, 0⟩ with
  | .raised e => .raised e
  | .running _ => .fuelOut
  | .done lst =>
    let settle := !env.bothExist 0 && settleCond timeout lst.elapsed
    .ret ⟨lst.cur, lst.elapsed + (if settle then 5 else 0), lst.elapsed,
      false, st.msgs, lst.iters, settle, lst.nextFetch⟩

/-- `wait_until_finished` after the initial fetch yielded snapshot `e0`:
the main polling loop (whose timeout branch returns the latest snapshot
immediately, skipping the log-wait phase), then the post-resolution
phase. -/
def afterFetch (env : WaitEnv) (timeout : Option ℚ) (fuel : Nat)
    (e0 : Execution) : WaitOut :=
  match waitLoop env timeout fuel (initSt e0) with
  | .raised e => .raised e
  | .running _ => .fuelOut
  | .timedOut st =>
    .ret ⟨st.cur, st.elapsed, st.elapsed, true, st.msgs, 0, false,
      st.nextFetch⟩
  | .resolved st => afterResolve env timeout fuel st

/-- `ExecutionEngine.wait_until_finished` (the `is_yarn_job` flag only
selects message wording and error-log wording, neither of which is part
of the modelled observable state).  Structure as in the source: initial
fetch (`execution_api._get`, before any timeout check), then the phases
of `afterFetch`. -/
def wait_until_finished (env : WaitEnv) (timeout : Option ℚ) (fuel : Nat) :
    WaitOut :=
  match env.fetch 0 with
  | .error e => .raised e
  | .ok e0 => afterFetch env timeout fuel e0

/-- Whether a log side is applicable: its remote path is non-null and the
remote existence query answers true. -/
def sideApplicable (env : DlEnv) (sidePath : Option String) : Bool :=
  match sidePath with
  | none => false
  | some p => env.remoteExists p

/-! ## Concrete oracles used by counterexamples and witnesses -/

/-- A download oracle that always raises the transient
`errorCode 110021` / HTTP 400 error. -/
def alwaysTransient : Nat → DlOutcome := fun _ => .err (some 110021) 400

/-- Transient error on attempts 1–3 (0-based 0–2), success on attempt 4. -/
def succeedsAt4 : Nat → DlOutcome := fun k =>
  if k < 3 then .err (some 110021) 400 else .ok "attempt4.log"

/-- Transient error on attempts 1–2, a non-transient 404 on attempt 3. -/
def fatalAt3 : Nat → DlOutcome := fun k =>
  if k < 2 then .err (some 110021) 400 else .err (some 120001) 404

/-! ## Helper lemmas on the bounded-retry download -/

/-- Running `dlLoop` across a prefix of `m` transient failures advances
`retries` by `m` and consumes `m` units of fuel. -/
theorem dlLoop_transient_advance (attempt : Nat → DlOutcome) :
    ∀ (m r fuel : Nat), r + m ≤ maxNumRetries →
      (∀ i, i < m → attempt (r + i) = .err (some 110021) 400) →
      dlLoop attempt (fuel + m) r = dlLoop attempt fuel (r + m) := by
  intro m
  induction m with
  | zero => intro r fuel _ _; rfl
  | succ m ih =>
    intro r fuel hle htrans
    have hr : r < maxNumRetries := by
      simp only [maxNumRetries] at *; omega
    have h0 : attempt r = .err (some 110021) 400 := by
      simpa using htrans 0 (by omega)
    have hstep : dlLoop attempt (fuel + m + 1) r
        = dlLoop attempt (fuel + m) (r + 1) := by
      simp [dlLoop, hr, h0, retryCond]
    have hrec := ih (r + 1) fuel (by omega)
      (fun i hi => by
        have := htrans (i + 1) (by omega)
        simpa [Nat.add_assoc, Nat.add_comm 1 i] using this)
    calc dlLoop attempt (fuel + (m + 1)) r
        = dlLoop attempt (fuel + m) (r + 1) := hstep
      _ = dlLoop attempt fuel (r + 1 + m) := hrec
      _ = dlLoop attempt fuel (r + (m + 1)) := by
          congr 1; omega

/-! ## Claim theorems: bounded-retry download -/

/-- C2: when every download attempt raises the transient
`errorCode 110021` / HTTP 400 error, `_download_log` makes exactly 12
attempts — and then falls out of the `while retries < max_num_retries`
loop, returning the still-`None` `download_path` normally instead of
propagating the last error.  (The inner `retries < max_num_retries`
conjunct of the retry branch is always true when reached, so the `raise`
is unreachable on the transient path; the claimed "propagates the last
error" behaviour does not occur.) -/
theorem download_log_cap_returns_none_after_12_attempts :
    download_log alwaysTransient = ⟨.ok none, 12, 12⟩ := by decide

/-- C4: (a) retries happen exactly on the transient
`errorCode 110021` / HTTP 400 error: with transient failures on attempts
1..k-1 and success on attempt k (k ≤ 12), exactly k attempts occur, k-1
retry sleeps happen, and the returned local path is attempt k's result;
(b) any other backend error propagates immediately: with a transient
prefix and a non-transient error on attempt j+1, exactly j+1 attempts
occur and that error is raised. -/
theorem download_log_retry_discipline :
    (∀ (attempt : Nat → DlOutcome) (k : Nat) (p : String),
      1 ≤ k → k ≤ maxNumRetries →
      (∀ i, i < k - 1 → attempt i = .err (some 110021) 400) →
      attempt (k - 1) = .ok p →
      download_log attempt = ⟨.ok (some p), k, k - 1⟩) ∧
    (∀ (attempt : Nat → DlOutcome) (j : Nat) (c : Option Nat) (s : Nat),
      j < maxNumRetries →
      (∀ i, i < j → attempt i = .err (some 110021) 400) →
      attempt j = .err c s → ¬(c = some 110021 ∧ s = 400) →
      download_log attempt = ⟨.raised c s, j + 1, j⟩) := by
  constructor
  · intro attempt k p hk1 hk12 htrans hsucc
    have hsplit : maxNumRetries + 1 = (14 - k) + (k - 1) := by
      simp only [maxNumRetries] at *; omega
    rw [download_log, hsplit,
      dlLoop_transient_advance attempt (k - 1) 0 (14 - k)
        (by simp only [maxNumRetries] at *; omega)
        (fun i hi => by simpa using htrans i hi)]
    obtain ⟨f, hf⟩ : ∃ f, 14 - k = f + 1 :=
      ⟨13 - k, by simp only [maxNumRetries] at hk12; omega⟩
    have hklt : k - 1 < maxNumRetries := by
      simp only [maxNumRetries] at *; omega
    rw [hf]
    have hk' : k - 1 + 1 = k := by omega
    simp [dlLoop, hklt, hsucc, hk']
  · intro attempt j c s hj htrans herr hnt
    have hsplit : maxNumRetries + 1 = (13 - j) + j := by
      simp only [maxNumRetries] at *; omega
    rw [download_log, hsplit,
      dlLoop_transient_advance attempt j 0 (13 - j)
        (by simp only [maxNumRetries] at *; omega)
        (fun i hi => by simpa using htrans i hi)]
    obtain ⟨f, hf⟩ : ∃ f, 13 - j = f + 1 :=
      ⟨12 - j, by simp only [maxNumRetries] at hj; omega⟩
    have hjlt : j < maxNumRetries := by
      simp only [maxNumRetries] at *; omega
    rw [hf]
    simp only [dlLoop, Nat.zero_add, hjlt, if_true, herr]
    have hcond : retryCond c s j = false := by
      simp only [retryCond, Bool.and_eq_false_iff]
      rcases Classical.em (c = some 110021) with hc | hc
      · rcases Classical.em (s = 400) with hs | hs
        · exact absurd ⟨hc, hs⟩ hnt
        · exact Or.inl (Or.inr (by simp [hs]))
      · exact Or.inl (Or.inl (by simp [hc]))
    simp [hcond]

/-- Witness for C4: six transient failures never happen here — attempts
1–3 fail transiently and attempt 4 succeeds (part a at k = 4), and a
non-transient 404 on attempt 3 propagates immediately (part b at j = 2). -/
theorem download_log_retry_discipline_witness :
    download_log succeedsAt4 = ⟨.ok (some "attempt4.log"), 4, 3⟩ ∧
    download_log fatalAt3 = ⟨.raised (some 120001) 404, 3, 2⟩ :=
  ⟨download_log_retry_discipline.1 succeedsAt4 4 "attempt4.log"
      (by decide) (by decide) (fun i hi => by
        interval_cases i <;> rfl) (by rfl),
    download_log_retry_discipline.2 fatalAt3 2 (some 120001) 404
      (by decide) (fun i hi => by interval_cases i <;> rfl) (by rfl)
      (by decide)⟩

/-! ## Claim theorems: `download_logs` -/

/-- C6: a non-null caller-supplied path that does not exist locally makes
`download_logs` raise `JobExecutionException` immediately, with zero
network calls (no existence query, no download attempt). -/
theorem download_logs_missing_path_fails_fast
    (env : DlEnv) (ex : Execution) (p : String)
    (h : env.localExists p = false) :
    download_logs env ex (some p) =
      ⟨.error (.jobExecutionException ("Path " ++ p ++ " does not exist")),
        0⟩ := by
  simp [download_logs, resolveBasePath, h]

/-- A `DlEnv` whose local filesystem is empty; used to witness C6. -/
def envNoLocal : DlEnv :=
  ⟨fun _ => false, "/cwd", "u0", fun _ => true, fun _ _ => .ok "x"⟩

/-- Sample execution with both log paths present remotely. -/
def exSample : Execution :=
  ⟨3, "trainjob", "FINISHED", "SUCCEEDED", some true, some "/x/out.log",
    some "/x/err.log"⟩

/-- Witness for C6 at a concrete missing path. -/
theorem download_logs_missing_path_fails_fast_witness :
    download_logs envNoLocal exSample (some "/nope") =
      ⟨.error (.jobExecutionException
        ("Path " ++ "/nope" ++ " does not exist")), 0⟩ :=
  download_logs_missing_path_fails_fast envNoLocal exSample "/nope" rfl

/-- Execution for the C7 scenario: `stdout_path = None`, stderr present. -/
def exC7 : Execution :=
  ⟨3, "trainjob", "FINISHED", "SUCCEEDED", some true, none,
    some "/x/err.log"⟩

/-- Environment where every download attempt succeeds. -/
def envDlOk : DlEnv :=
  ⟨fun _ => true, "/cwd", "u0", fun _ => true, fun _ _ => .ok "dl/err.log"⟩

/-- Environment where every download attempt raises the transient error. -/
def envDlTransient : DlEnv :=
  ⟨fun _ => true, "/cwd", "u0", fun _ => true, fun _ => alwaysTransient⟩

/-- Counterexample to C7 as stated: with a non-null stderr path whose
remote existence check is true, but whose 12 download attempts all fail
with the transient error, `_download_log` falls through returning `None`,
so `download_logs` returns a null stderr side — null despite the claim
that a side is null exactly when its path is null or the existence check
is false (and despite null meaning "not present rather than failure"). -/
theorem download_logs_null_side_despite_present :
    (download_logs envDlTransient exC7 none).result = .ok (none, none) ∧
    exC7.stderrPath = some "/x/err.log" ∧
    envDlTransient.remoteExists "/x/err.log" = true := by decide

/-- One side of `download_logs` under the assumption that the download
(when reached) succeeds within the retry budget. -/
theorem downloadSide_characterisation (env : DlEnv) (sidePath : Option String)
    (h : ∀ q, sidePath = some q → env.remoteExists q = true →
      ∃ l, (download_log (env.attempt q)).result = .ok (some l)) :
    ∃ o n, downloadSide env sidePath = (.ok o, n) ∧
      o.isSome = sideApplicable env sidePath := by
  cases sidePath with
  | none => exact ⟨none, 0, rfl, rfl⟩
  | some p =>
    by_cases hre : env.remoteExists p
    · obtain ⟨l, hl⟩ := h p rfl hre
      exact ⟨some l, 1 + (download_log (env.attempt p)).attempts,
        by simp [downloadSide, hre, hl], by simp [sideApplicable, hre]⟩
    · exact ⟨none, 1, by simp [downloadSide, hre],
        by simp [sideApplicable, hre]⟩

/-- C7 (amended): `download_logs` handles the two sides independently and
returns a pair; provided each applicable side's bounded-retry download
succeeds within the cap, a side is null exactly when its remote path is
null or the remote existence check is false.  The second conjunct is the
claim's scenario: `stdout_path = None` and stderr present remotely yields
`(None, <downloaded stderr path>)`. -/
theorem download_logs_pair_characterisation :
    (∀ (env : DlEnv) (ex : Execution) (path : Option String) (b : String),
      resolveBasePath env path = .ok b →
      (∀ q, ex.stdoutPath = some q → env.remoteExists q = true →
        ∃ l, (download_log (env.attempt q)).result = .ok (some l)) →
      (∀ q, ex.stderrPath = some q → env.remoteExists q = true →
        ∃ l, (download_log (env.attempt q)).result = .ok (some l)) →
      ∃ o e, (download_logs env ex path).result = .ok (o, e) ∧
        o.isSome = sideApplicable env ex.stdoutPath ∧
        e.isSome = sideApplicable env ex.stderrPath) ∧
    download_logs envDlOk exC7 none = ⟨.ok (none, some "dl/err.log"), 2⟩ := by
  constructor
  · intro env ex path b hbase hout herr
    obtain ⟨o, n1, ho, hoA⟩ := downloadSide_characterisation env ex.stdoutPath hout
    obtain ⟨e, n2, he, heA⟩ := downloadSide_characterisation env ex.stderrPath herr
    refine ⟨o, e, ?_, hoA, heA⟩
    simp [download_logs, hbase, downloadBoth, ho, he]
  · decide

/-- Witness for C7's general part, at the scenario environment. -/
theorem download_logs_pair_characterisation_witness :
    ∃ o e, (download_logs envDlOk exC7 none).result = .ok (o, e) ∧
      o.isSome = sideApplicable envDlOk exC7.stdoutPath ∧
      e.isSome = sideApplicable envDlOk exC7.stderrPath :=
  download_logs_pair_characterisation.1 envDlOk exC7 none "/cwd" rfl
    (fun q hq _ => by simp [exC7] at hq)
    (fun q hq _ => ⟨"dl/err.log", by
      simp only [exC7] at hq
      cases hq
      decide⟩)

/-! ## Unfolding lemmas for the polling loops -/

theorem waitLoop_resolved_of (env : WaitEnv) (timeout : Option ℚ)
    (fuel : Nat) (st : LoopSt) (h : st.cur.success.isSome = true) :
    waitLoop env timeout fuel st = .resolved st := by
  cases fuel <;> simp [waitLoop, h]

theorem waitLoop_timedOut_of (env : WaitEnv) (timeout : Option ℚ)
    (fuel : Nat) (st : LoopSt) (h1 : st.cur.success.isSome = false)
    (h2 : timeoutGuard timeout st.elapsed = true) :
    waitLoop env timeout fuel st = .timedOut st := by
  cases fuel <;> simp [waitLoop, h1, h2]

theorem waitLoop_zero_running (env : WaitEnv) (timeout : Option ℚ)
    (st : LoopSt) (h1 : st.cur.success.isSome = false)
    (h2 : timeoutGuard timeout st.elapsed = false) :
    waitLoop env timeout 0 st = .running st := by
  simp [waitLoop, h1, h2]

theorem waitLoop_raised_of (env : WaitEnv) (timeout : Option ℚ)
    (fuel : Nat) (st : LoopSt) (e : String)
    (h1 : st.cur.success.isSome = false)
    (h2 : timeoutGuard timeout st.elapsed = false)
    (h3 : env.fetch st.nextFetch = .error e) :
    waitLoop env timeout (fuel + 1) st = .raised e := by
  simp [waitLoop, h1, h2, h3]

theorem waitLoop_step (env : WaitEnv) (timeout : Option ℚ) (fuel : Nat)
    (st : LoopSt) (ex : Execution) (h1 : st.cur.success.isSome = false)
    (h2 : timeoutGuard timeout st.elapsed = false)
    (h3 : env.fetch st.nextFetch = .ok ex) :
    waitLoop env timeout (fuel + 1) st = waitLoop env timeout fuel (stepSt st ex) := by
  conv_lhs => rw [waitLoop]
  simp [h1, h2, h3]

theorem logLoop_done_exit (env : WaitEnv) (timeout : Option ℚ)
    (fuel : Nat) (awaitTime : ℚ) (filesExist : Bool) (st : LogSt)
    (h : (filesExist || decide (awaitTime < 0)) = true) :
    logLoop env timeout fuel awaitTime filesExist st = .done st := by
  cases fuel <;> (rw [logLoop]; simp [h])

theorem logLoop_done_timeout (env : WaitEnv) (timeout : Option ℚ)
    (fuel : Nat) (awaitTime : ℚ) (filesExist : Bool) (st : LogSt)
    (h1 : (filesExist || decide (awaitTime < 0)) = false)
    (h2 : timeoutGuard timeout st.elapsed = true) :
    logLoop env timeout fuel awaitTime filesExist st = .done st := by
  cases fuel <;> (rw [logLoop]; simp [h1, h2])

theorem logLoop_zero_running (env : WaitEnv) (timeout : Option ℚ)
    (awaitTime : ℚ) (filesExist : Bool) (st : LogSt)
    (h1 : (filesExist || decide (awaitTime < 0)) = false)
    (h2 : timeoutGuard timeout st.elapsed = false) :
    logLoop env timeout 0 awaitTime filesExist st = .running st := by
  rw [logLoop]; simp [h1, h2]

theorem logLoop_raised_of (env : WaitEnv) (timeout : Option ℚ)
    (fuel : Nat) (awaitTime : ℚ) (filesExist : Bool) (st : LogSt)
    (e : String) (h1 : (filesExist || decide (awaitTime < 0)) = false)
    (h2 : timeoutGuard timeout st.elapsed = false)
    (h3 : env.fetch st.nextFetch = .error e) :
    logLoop env timeout (fuel + 1) awaitTime filesExist st = .raised e := by
  rw [logLoop]; simp [h1, h2, h3]

theorem logLoop_step (env : WaitEnv) (timeout : Option ℚ) (fuel : Nat)
    (awaitTime : ℚ) (filesExist : Bool) (st : LogSt) (ex : Execution)
    (h1 : (filesExist || decide (awaitTime < 0)) = false)
    (h2 : timeoutGuard timeout st.elapsed = false)
    (h3 : env.fetch st.nextFetch = .ok ex) :
    logLoop env timeout (fuel + 1) awaitTime filesExist st =
      logLoop env timeout fuel (awaitTime - MAX_LAG)
        (env.bothExist st.nextExist) (logStepSt st ex) := by
  conv_lhs => rw [logLoop]
  simp [h1, h2, h3]

/-- Any property of the main-loop state that is preserved by one loop
iteration holds at the loop's exit state. -/
theorem waitLoop_preserves (env : WaitEnv) (timeout : Option ℚ)
    (P : LoopSt → Prop)
    (hstep : ∀ st ex, env.fetch st.nextFetch = .ok ex → P st →
      P (stepSt st ex)) :
    ∀ (fuel : Nat) (st st' : LoopSt), P st →
      (waitLoop env timeout fuel st = .timedOut st' ∨
        waitLoop env timeout fuel st = .resolved st') → P st' := by
  intro fuel
  induction fuel with
  | zero =>
    intro st st' hP hout
    by_cases hs : st.cur.success.isSome
    · rw [waitLoop_resolved_of env timeout 0 st hs] at hout
      rcases hout with h | h <;> cases h
      exact hP
    · by_cases hg : timeoutGuard timeout st.elapsed
      · rw [waitLoop_timedOut_of env timeout 0 st
          (Bool.not_eq_true _ ▸ hs) hg] at hout
        rcases hout with h | h <;> cases h
        exact hP
      · rw [waitLoop_zero_running env timeout st
          (Bool.not_eq_true _ ▸ hs) (Bool.not_eq_true _ ▸ hg)] at hout
        rcases hout with h | h <;> cases h
  | succ fuel ih =>
    intro st st' hP hout
    by_cases hs : st.cur.success.isSome
    · rw [waitLoop_resolved_of env timeout (fuel + 1) st hs] at hout
      rcases hout with h | h <;> cases h
      exact hP
    · by_cases hg : timeoutGuard timeout st.elapsed
      · rw [waitLoop_timedOut_of env timeout (fuel + 1) st
          (Bool.not_eq_true _ ▸ hs) hg] at hout
        rcases hout with h | h <;> cases h
        exact hP
      · cases hf : env.fetch st.nextFetch with
        | error e =>
          rw [waitLoop_raised_of env timeout fuel st e
            (Bool.not_eq_true _ ▸ hs) (Bool.not_eq_true _ ▸ hg) hf] at hout
          rcases hout with h | h <;> cases h
        | ok ex =>
          rw [waitLoop_step env timeout fuel st ex
            (Bool.not_eq_true _ ▸ hs) (Bool.not_eq_true _ ▸ hg) hf] at hout
          exact ih (stepSt st ex) st' (hstep st ex hf hP) hout

/-- Any property of the log-wait state preserved by one loop iteration
holds at the loop's `done` state. -/
theorem logLoop_preserves (env : WaitEnv) (timeout : Option ℚ)
    (P : LogSt → Prop)
    (hstep : ∀ st ex, env.fetch st.nextFetch = .ok ex → P st →
      P (logStepSt st ex)) :
    ∀ (fuel : Nat) (awaitTime : ℚ) (filesExist : Bool) (st lst : LogSt),
      P st →
      logLoop env timeout fuel awaitTime filesExist st = .done lst →
      P lst := by
  intro fuel
  induction fuel with
  | zero =>
    intro a fe st lst hP hout
    by_cases hx : (fe || decide (a < 0)) = true
    · rw [logLoop_done_exit env timeout 0 a fe st hx] at hout
      cases hout; exact hP
    · by_cases hg : timeoutGuard timeout st.elapsed
      · rw [logLoop_done_timeout env timeout 0 a fe st
          (Bool.not_eq_true _ ▸ hx) hg] at hout
        cases hout; exact hP
      · rw [logLoop_zero_running env timeout a fe st
          (Bool.not_eq_true _ ▸ hx) (Bool.not_eq_true _ ▸ hg)] at hout
        cases hout
  | succ fuel ih =>
    intro a fe st lst hP hout
    by_cases hx : (fe || decide (a < 0)) = true
    · rw [logLoop_done_exit env timeout (fuel + 1) a fe st hx] at hout
      cases hout; exact hP
    · by_cases hg : timeoutGuard timeout st.elapsed
      · rw [logLoop_done_timeout env timeout (fuel + 1) a fe st
          (Bool.not_eq_true _ ▸ hx) hg] at hout
        cases hout; exact hP
      · cases hf : env.fetch st.nextFetch with
        | error e =>
          rw [logLoop_raised_of env timeout fuel a fe st e
            (Bool.not_eq_true _ ▸ hx) (Bool.not_eq_true _ ▸ hg) hf] at hout
          cases hout
        | ok ex =>
          rw [logLoop_step env timeout fuel a fe st ex
            (Bool.not_eq_true _ ▸ hx) (Bool.not_eq_true _ ▸ hg) hf] at hout
          exact ih (a - MAX_LAG) (env.bothExist st.nextExist)
            (logStepSt st ex) lst (hstep st ex hf hP) hout

/-! ## Concrete environments for `wait_until_finished` scenarios -/

/-- An execution snapshot that never resolves (`success = None`). -/
def exUnresolved : Execution :=
  ⟨7, "batchjob", "RUNNING", "UNDEFINED", none, none, none⟩

/-- Environment whose fetches always return the unresolved snapshot and
whose log files never exist. -/
def envUnresolved : WaitEnv :=
  pureEnv (fun _ => exUnresolved) (fun _ => false)

/-- A snapshot with the given `state` and `success`, with both log paths
set. -/
def exState (s : String) (su : Option Bool) : Execution :=
  ⟨7, "batchjob", s, "F", su, some "/x/out.log", some "/x/err.log"⟩

/-! ## Claim theorems: `wait_until_finished` -/

/-- C3: when the timeout guard fires before `success` resolves,
`wait_until_finished` returns the latest fetched snapshot — a normal
`.ret`, not an exception — without entering the log-wait phase (zero
log-wait iterations, no settle sleep).  The second conjunct is the
claim's scenario: `timeout = 1.0` with an always-unresolved fetch
returns the very first fetched snapshot on the first loop check, with no
iteration (`fetchCount = 1`, no virtual time elapsed, no messages). -/
theorem wait_timeout_returns_latest_snapshot :
    (∀ (env : WaitEnv) (timeout : Option ℚ) (fuel : Nat) (e0 : Execution)
      (st : LoopSt),
      env.fetch 0 = .ok e0 →
      waitLoop env timeout fuel (initSt e0) = .timedOut st →
      wait_until_finished env timeout fuel =
        .ret ⟨st.cur, st.elapsed, st.elapsed, true, st.msgs, 0, false,
          st.nextFetch⟩) ∧
    wait_until_finished envUnresolved (some 1) 10 =
      .ret ⟨exUnresolved, 0, 0, true, [], 0, false, 1⟩ := by
  constructor
  · intro env timeout fuel e0 st h0 hw
    simp [wait_until_finished, h0, afterFetch, hw]
  · simp [wait_until_finished, afterFetch, waitLoop, timeoutGuard, MAX_LAG,
      envUnresolved, pureEnv, exUnresolved, initSt]

/-- Witness for C3's general part: at `timeout = 2` the guard also fires
on the first check, and the theorem instantiates with both hypotheses
discharged by `rfl`. -/
theorem wait_timeout_returns_latest_snapshot_witness :
    wait_until_finished envUnresolved (some 2) 10 =
      .ret ⟨(initSt exUnresolved).cur, (initSt exUnresolved).elapsed,
        (initSt exUnresolved).elapsed, true, (initSt exUnresolved).msgs, 0,
        false, (initSt exUnresolved).nextFetch⟩ :=
  wait_timeout_returns_latest_snapshot.1 envUnresolved (some 2) 10
    exUnresolved (initSt exUnresolved) rfl
    (waitLoop_timedOut_of envUnresolved (some 2) 10 (initSt exUnresolved)
      rfl (by simp only [timeoutGuard, MAX_LAG, initSt]; norm_num))

/-- C10: (a) an error raised by the initial execution fetch propagates to
the caller for every timeout value, including an already-expired one —
the fetch precedes every timeout check; (b) every normal return carries a
freshly fetched snapshot: at least one fetch was made and the returned
execution is the value of the last fetch (never the caller's argument,
of which only the id is used). -/
theorem wait_initial_fetch_precedes_timeout_check :
    (∀ (env : WaitEnv) (timeout : Option ℚ) (fuel : Nat) (e : String),
      env.fetch 0 = .error e →
      wait_until_finished env timeout fuel = .raised e) ∧
    (∀ (env : WaitEnv) (timeout : Option ℚ) (fuel : Nat) (r : WaitResult),
      wait_until_finished env timeout fuel = .ret r →
      1 ≤ r.fetchCount ∧ env.fetch (r.fetchCount - 1) = .ok r.result) := by
  constructor
  · intro env timeout fuel e h
    simp [wait_until_finished, h]
  · intro env timeout fuel r h
    cases hf : env.fetch 0 with
    | error e => simp [wait_until_finished, hf] at h
    | ok e0 =>
      have hfInv : ∀ st st' : LoopSt,
          (1 ≤ st.nextFetch ∧ env.fetch (st.nextFetch - 1) = .ok st.cur) →
          (waitLoop env timeout fuel st = .timedOut st' ∨
            waitLoop env timeout fuel st = .resolved st') →
          1 ≤ st'.nextFetch ∧ env.fetch (st'.nextFetch - 1) = .ok st'.cur :=
        waitLoop_preserves env timeout
          (fun st => 1 ≤ st.nextFetch ∧
            env.fetch (st.nextFetch - 1) = .ok st.cur)
          (fun st ex hfe ⟨h1, _⟩ => by
            refine ⟨by simp [stepSt], ?_⟩
            simpa [stepSt] using hfe) fuel
      simp only [wait_until_finished, hf] at h
      rw [afterFetch] at h
      cases hw : waitLoop env timeout fuel (initSt e0) with
      | raised e => rw [hw] at h; cases h
      | running st => rw [hw] at h; cases h
      | timedOut st =>
        rw [hw] at h
        cases h
        exact hfInv (initSt e0) st ⟨le_refl 1, hf⟩ (Or.inl hw)
      | resolved st =>
        rw [hw] at h
        have hmain := hfInv (initSt e0) st ⟨le_refl 1, hf⟩ (Or.inr hw)
        have hlInv : ∀ s' ls' : LogSt,
            (1 ≤ s'.nextFetch ∧
              env.fetch (s'.nextFetch - 1) = .ok s'.cur) →
            logLoop env timeout fuel (6 * 60) (env.bothExist 0)
              s' = .done ls' →
            1 ≤ ls'.nextFetch ∧
              env.fetch (ls'.nextFetch - 1) = .ok ls'.cur :=
          fun s' ls' hP hdone =>
            logLoop_preserves env timeout
              (fun s => 1 ≤ s.nextFetch ∧
                env.fetch (s.nextFetch - 1) = .ok s.cur)
              (fun s ex hfe ⟨h1, _⟩ => by
                refine ⟨by simp [logStepSt], ?_⟩
                simpa [logStepSt] using hfe)
              fuel (6 * 60) (env.bothExist 0) s' ls' hP hdone
        simp only [afterResolve] at h
        cases hl : logLoop env timeout fuel (6 * 60) (env.bothExist 0)
            ⟨st.cur, st.elapsed, st.nextFetch, 1, 0⟩ with
        | raised e => rw [hl] at h; cases h
        | running s => rw [hl] at h; cases h
        | done lst =>
          rw [hl] at h
          cases h
          exact hlInv ⟨st.cur, st.elapsed, st.nextFetch, 1, 0⟩ lst
            ⟨hmain.1, hmain.2⟩ hl

/-- Environment whose initial fetch raises; used to witness C10. -/
def envFetchFails : WaitEnv :=
  ⟨fun _ => .error "RestAPIError: 500", fun _ => false⟩

/-- Witness for C10: the initial-fetch error propagates under an
immediately-expiring (negative, hence truthy) timeout, and a returning
run's snapshot equals its last fetch. -/
theorem wait_initial_fetch_precedes_timeout_check_witness :
    wait_until_finished envFetchFails (some (-1)) 5 =
      .raised "RestAPIError: 500" ∧
    (1 ≤ (1 : Nat) ∧ envUnresolved.fetch (1 - 1) = .ok exUnresolved) :=
  ⟨wait_initial_fetch_precedes_timeout_check.1 envFetchFails (some (-1)) 5
      "RestAPIError: 500" rfl,
    by
      have h := wait_initial_fetch_precedes_timeout_check.2 envUnresolved
        (some 1) 10 ⟨exUnresolved, 0, 0, true, [], 0, false, 1⟩
        (by simp [wait_until_finished, afterFetch, waitLoop, timeoutGuard,
          MAX_LAG, envUnresolved, pureEnv, exUnresolved, initSt])
      simpa using h⟩

/-- Fetch sequence whose `state` alternates A, B, A before resolving. -/
def fAlternating : Nat → Execution
  | 0 => exState "A" none
  | 1 => exState "A" none
  | 2 => exState "B" none
  | 3 => exState "A" none
  | _ => exState "A" (some true)

/-- Environment for the C5 counterexample. -/
def envAlternating : WaitEnv := pureEnv fAlternating (fun _ => true)

/-- Counterexample to C5 as stated: when the observed state sequence
alternates A, B, A, the progress message for state "A" is emitted twice
in a single call — the dedup compares only against the immediately
preceding poll's state, so a state value that reappears after an
intervening different value triggers a fresh message.  (Messages here:
["A", "B", "A"]; the count of "A" is 2, not at most 1.) -/
theorem wait_progress_message_repeats_for_reappearing_state :
    wait_until_finished envAlternating none 20 =
      .ret ⟨exState "A" (some true), 12, 12, false, ["A", "B", "A"], 0,
        false, 5⟩ ∧
    List.count "A" ["A", "B", "A"] = 2 := by
  constructor
  · simp [wait_until_finished, afterFetch, afterResolve, waitLoop, logLoop,
      timeoutGuard, settleCond, stepSt, logStepSt, pushMsg, initSt, MAX_LAG,
      envAlternating, pureEnv, fAlternating, exState]
    norm_num
  · rfl

/-- The message bookkeeping invariant: the emitted message list has no
two adjacent equal entries, and its last entry (if any) is the previous
poll's state. -/
def msgInv (st : LoopSt) : Prop :=
  List.Chain' (fun a b => a ≠ b) st.msgs ∧
    ∀ l, st.msgs.getLast? = some l → st.prevState = some l

theorem msgInv_step (st : LoopSt) (ex : Execution) (h : msgInv st) :
    msgInv (stepSt st ex) := by
  obtain ⟨hc, hl⟩ := h
  by_cases hne : st.prevState ≠ some ex.state
  · constructor
    · simp only [stepSt, pushMsg, if_pos hne]
      refine List.chain'_append.mpr ⟨hc, List.chain'_singleton _, ?_⟩
      intro x hx y hy
      simp only [List.head?_cons, Option.mem_def, Option.some.injEq] at hy
      subst hy
      intro hxy
      exact hne (by rw [hl x hx, hxy])
    · intro l hlast
      simp only [stepSt, pushMsg, if_pos hne] at hlast ⊢
      rw [List.getLast?_concat] at hlast
      exact hlast ▸ rfl
  · push_neg at hne
    constructor
    · simp only [stepSt, pushMsg, if_neg (not_not_intro hne)]
      exact hc
    · intro l hlast
      simp only [stepSt, pushMsg, if_neg (not_not_intro hne)] at hlast
      have h2 := hl l hlast
      simp only [stepSt]
      rw [← hne, h2]

/-- C5 (amended): within one `wait_until_finished` call, a progress
message is emitted exactly when the fetched state differs from the
immediately preceding poll's state — hence consecutive polls with an
unchanged state emit nothing, and the emitted message sequence never has
two adjacent equal state values; but a state value that reappears after
an intervening different state may be announced again. -/
theorem wait_progress_messages_no_adjacent_repeat :
    ∀ (env : WaitEnv) (timeout : Option ℚ) (fuel : Nat) (r : WaitResult),
      wait_until_finished env timeout fuel = .ret r →
      List.Chain' (fun a b => a ≠ b) r.msgs := by
  intro env timeout fuel r h
  cases hf : env.fetch 0 with
  | error e => simp [wait_until_finished, hf] at h
  | ok e0 =>
    have hInv : ∀ st st' : LoopSt, msgInv st →
        (waitLoop env timeout fuel st = .timedOut st' ∨
          waitLoop env timeout fuel st = .resolved st') → msgInv st' :=
      waitLoop_preserves env timeout msgInv
        (fun st ex _ hP => msgInv_step st ex hP) fuel
    have hInit : msgInv (initSt e0) := ⟨List.chain'_nil, by simp [initSt]⟩
    simp only [wait_until_finished, hf] at h
    rw [afterFetch] at h
    cases hw : waitLoop env timeout fuel (initSt e0) with
    | raised e => rw [hw] at h; cases h
    | running st => rw [hw] at h; cases h
    | timedOut st =>
      rw [hw] at h
      cases h
      exact (hInv (initSt e0) st hInit (Or.inl hw)).1
    | resolved st =>
      rw [hw] at h
      simp only [afterResolve] at h
      cases hl : logLoop env timeout fuel (6 * 60) (env.bothExist 0)
          ⟨st.cur, st.elapsed, st.nextFetch, 1, 0⟩ with
      | raised e => rw [hl] at h; cases h
      | running s => rw [hl] at h; cases h
      | done lst =>
        rw [hl] at h
        cases h
        exact (hInv (initSt e0) st hInit (Or.inr hw)).1

/-- Witness for C5's amended theorem at the alternating-state run: the
emitted list ["A", "B", "A"] has no two adjacent equal entries. -/
theorem wait_progress_messages_no_adjacent_repeat_witness :
    List.Chain' (fun a b => a ≠ b)
      (WaitResult.msgs ⟨exState "A" (some true), 12, 12, false,
        ["A", "B", "A"], 0, false, 5⟩) :=
  wait_progress_messages_no_adjacent_repeat envAlternating none 20
    ⟨exState "A" (some true), 12, 12, false, ["A", "B", "A"], 0, false, 5⟩
    (by
      simp [wait_until_finished, afterFetch, afterResolve, waitLoop,
        logLoop, timeoutGuard, settleCond, stepSt, logStepSt, pushMsg,
        initSt, MAX_LAG, envAlternating, pureEnv, fAlternating, exState]
      norm_num)

/-- Environment for the C8 counterexample: success resolves on the
initial fetch, the log files do not exist at resolution but appear at
the first in-loop existence check. -/
def envSettle : WaitEnv :=
  pureEnv (fun _ => exState "S" (some true)) (fun k => decide (1 ≤ k))

/-- Counterexample to C8 as stated: with `timeout = 8`, resolution at
elapsed 0 and the log files appearing after one 3-second log-wait
iteration, the remaining headroom at the settle check is exactly
8 − 3 = 5 seconds — "at least 5 seconds of headroom" holds — yet the
settle sleep is skipped, because the code requires strictly
`timeout > passed() + 5`. -/
theorem wait_settle_skipped_at_exactly_five_seconds_headroom :
    wait_until_finished envSettle (some 8) 50 =
      .ret ⟨exState "S" (some true), 3, 3, false, [], 1, false, 2⟩ ∧
    envSettle.bothExist 0 = false ∧ (8 : ℚ) - 3 = 5 := by
  refine ⟨?_, rfl, by norm_num⟩
  simp [wait_until_finished, afterFetch, afterResolve, waitLoop, logLoop,
    timeoutGuard, settleCond, stepSt, logStepSt, pushMsg, initSt, MAX_LAG,
    envSettle, pureEnv, exState]
  norm_num

/-- C8 (amended): on a non-timeout return, (a) if both log files already
existed at the moment success resolved, the log-wait loop runs zero
iterations and the settle sleep is skipped; (b) the settle sleep happens
exactly when the files did not already exist and the timeout is unset,
zero (falsy), or leaves strictly more than 5 seconds of headroom after
the wait loop; (c) the settle sleep adds exactly 5 virtual seconds. -/
theorem wait_settle_sleep_characterisation :
    ∀ (env : WaitEnv) (timeout : Option ℚ) (fuel : Nat) (r : WaitResult),
      wait_until_finished env timeout fuel = .ret r → r.timedOut = false →
      (env.bothExist 0 = true → r.logIters = 0 ∧ r.settleSlept = false) ∧
      r.settleSlept =
        (!env.bothExist 0 && settleCond timeout r.elapsedAtLogDone) ∧
      r.elapsed = r.elapsedAtLogDone + (if r.settleSlept then 5 else 0) := by
  intro env timeout fuel r h htO
  cases hf : env.fetch 0 with
  | error e => simp [wait_until_finished, hf] at h
  | ok e0 =>
    simp only [wait_until_finished, hf] at h
    rw [afterFetch] at h
    cases hw : waitLoop env timeout fuel (initSt e0) with
    | raised e => rw [hw] at h; cases h
    | running st => rw [hw] at h; cases h
    | timedOut st =>
      rw [hw] at h
      cases h
      cases htO
    | resolved st =>
      rw [hw] at h
      simp only [afterResolve] at h
      cases hl : logLoop env timeout fuel (6 * 60) (env.bothExist 0)
          ⟨st.cur, st.elapsed, st.nextFetch, 1, 0⟩ with
      | raised e => rw [hl] at h; cases h
      | running s => rw [hl] at h; cases h
      | done lst =>
        rw [hl] at h
        cases h
        refine ⟨?_, rfl, rfl⟩
        intro hex
        have hdone :
            logLoop env timeout fuel (6 * 60) (env.bothExist 0)
              ⟨st.cur, st.elapsed, st.nextFetch, 1, 0⟩ =
            .done ⟨st.cur, st.elapsed, st.nextFetch, 1, 0⟩ :=
          logLoop_done_exit env timeout fuel (6 * 60) (env.bothExist 0)
            ⟨st.cur, st.elapsed, st.nextFetch, 1, 0⟩ (by simp [hex])
        rw [hl] at hdone
        cases hdone
        exact ⟨rfl, by simp [hex]⟩

/-- Witness for C8's amended theorem at the `envSettle` run. -/
theorem wait_settle_sleep_characterisation_witness :
    (envSettle.bothExist 0 = true →
      WaitResult.logIters ⟨exState "S" (some true), 3, 3, false, [], 1,
        false, 2⟩ = 0 ∧
      WaitResult.settleSlept ⟨exState "S" (some true), 3, 3, false, [], 1,
        false, 2⟩ = false) ∧
    WaitResult.settleSlept
        ⟨exState "S" (some true), 3, 3, false, [], 1, false, 2⟩ =
      (!envSettle.bothExist 0 && settleCond (some 8)
        (WaitResult.elapsedAtLogDone ⟨exState "S" (some true), 3, 3, false,
          [], 1, false, 2⟩)) ∧
    WaitResult.elapsed ⟨exState "S" (some true), 3, 3, false, [], 1, false,
        2⟩ =
      WaitResult.elapsedAtLogDone ⟨exState "S" (some true), 3, 3, false,
        [], 1, false, 2⟩ +
      (if WaitResult.settleSlept ⟨exState "S" (some true), 3, 3, false, [],
        1, false, 2⟩ then 5 else 0) :=
  wait_settle_sleep_characterisation envSettle (some 8) 50
    ⟨exState "S" (some true), 3, 3, false, [], 1, false, 2⟩
    (by
      simp [wait_until_finished, afterFetch, afterResolve, waitLoop,
        logLoop, timeoutGuard, settleCond, stepSt, logStepSt, pushMsg,
        initSt, MAX_LAG, envSettle, pureEnv, exState]
      norm_num)
    rfl

/-- Environment for the C9 counterexample: resolved at once, no timeout,
log files never appear. -/
def envLogNever : WaitEnv :=
  pureEnv (fun _ => exState "S" (some true)) (fun _ => false)

set_option maxHeartbeats 4000000 in
set_option maxRecDepth 4000 in
/-- Counterexample to C9 as stated: with no timeout and log files that
never appear, the log-wait loop runs while `await_time >= 0`, and
`await_time` takes the 121 values 360, 357, …, 0 — so exactly 121
iterations occur (359.999… would give 120; the inclusive `>= 0` admits
one more), not the claimed maximum of 120.  The loop does terminate, and
the settle sleep then fires (no timeout), returning at virtual time
363 + 5. -/
theorem wait_log_wait_runs_121_iterations :
    wait_until_finished envLogNever none 200 =
      .ret ⟨exState "S" (some true), 368, 363, false, [], 121, true,
        122⟩ := by
  simp [wait_until_finished, afterFetch, afterResolve, waitLoop, logLoop,
    timeoutGuard, settleCond, stepSt, logStepSt, pushMsg, initSt, MAX_LAG,
    envLogNever, pureEnv, exState]
  norm_num

/-- Fuel-indexed bound on the log-wait loop for raising-free
environments: it always reaches `done`, within `a/3 + 1` iterations. -/
theorem logLoop_pure_done_iters_bound (f : Nat → Execution)
    (bx : Nat → Bool) (timeout : Option ℚ) :
    ∀ (fuel : Nat) (a : ℚ) (filesExist : Bool) (st : LogSt),
      -3 ≤ a → a < 3 * fuel →
      ∃ lst, logLoop (pureEnv f bx) timeout fuel a filesExist st =
          .done lst ∧
        (lst.iters : ℚ) ≤ (st.iters : ℚ) + a / 3 + 1 := by
  intro fuel
  have hbound : ∀ (a : ℚ) (st : LogSt), -3 ≤ a →
      (st.iters : ℚ) ≤ (st.iters : ℚ) + a / 3 + 1 := by
    intro a st hma
    have h3 : (0 : ℚ) < 3 := by norm_num
    have := (div_le_div_iff_of_pos_right h3).mpr hma
    norm_num at this
    linarith
  induction fuel with
  | zero =>
    intro a fe st hma hlt
    have ha : a < 0 := by push_cast at hlt; linarith
    exact ⟨st, logLoop_done_exit _ _ _ _ _ _ (by simp [ha]), hbound a st hma⟩
  | succ fuel ih =>
    intro a fe st hma hlt
    by_cases hx : (fe || decide (a < 0)) = true
    · exact ⟨st, logLoop_done_exit _ _ _ _ _ _ hx, hbound a st hma⟩
    · by_cases hg : timeoutGuard timeout st.elapsed
      · exact ⟨st, logLoop_done_timeout _ _ _ _ _ _
          (Bool.not_eq_true _ ▸ hx) hg, hbound a st hma⟩
      · have ha0 : 0 ≤ a := by
          rcases Bool.or_eq_false_iff.mp (Bool.not_eq_true _ ▸ hx)
            with ⟨-, hd⟩
          simpa [not_lt] using of_decide_eq_false hd
        obtain ⟨lst, hdone, hb⟩ := ih (a - MAX_LAG) (bx st.nextExist)
          (logStepSt st (f st.nextFetch))
          (by simp only [MAX_LAG]; linarith)
          (by simp only [MAX_LAG]; push_cast at hlt ⊢; linarith)
        refine ⟨lst, ?_, ?_⟩
        · rw [logLoop_step (pureEnv f bx) timeout fuel a fe st
            (f st.nextFetch) (Bool.not_eq_true _ ▸ hx)
            (Bool.not_eq_true _ ▸ hg) rfl]
          exact hdone
        · simp only [logStepSt] at hb
          push_cast at hb ⊢
          have harith : (a - 3) / 3 = a / 3 - 1 := by ring
          simp only [MAX_LAG] at hb
          rw [harith] at hb
          linarith

/-- C9 (amended): the post-resolution log-wait loop always terminates
when fetches do not raise, even with no caller timeout and log files
that never appear: its 360-second budget, decremented by the 3-second
poll interval, bounds it to at most 121 iterations (the inclusive
`await_time >= 0` test admits one iteration more than 360/3 = 120). -/
theorem log_wait_terminates_within_121_iterations :
    ∀ (f : Nat → Execution) (bx : Nat → Bool) (timeout : Option ℚ)
      (filesExist : Bool) (st : LogSt) (fuel : Nat), 120 < fuel →
      ∃ lst, logLoop (pureEnv f bx) timeout fuel (6 * 60) filesExist st =
          .done lst ∧ lst.iters ≤ st.iters + 121 := by
  intro f bx timeout fe st fuel hfuel
  have hq : (121 : ℚ) ≤ (fuel : Nat) := by exact_mod_cast hfuel
  obtain ⟨lst, hdone, hb⟩ := logLoop_pure_done_iters_bound f bx timeout
    fuel (6 * 60) fe st (by norm_num) (by linarith)
  refine ⟨lst, hdone, ?_⟩
  have h360 : ((6 * 60 : ℚ)) / 3 = 120 := by norm_num
  rw [h360] at hb
  exact_mod_cast hb

/-- Witness for C9's amended theorem: at fuel 130 the log-wait loop on
a never-existing environment reaches `done` within 121 iterations. -/
theorem log_wait_terminates_within_121_iterations_witness :
    ∃ lst, logLoop (pureEnv (fun _ => exState "S" (some true))
        (fun _ => false)) none 130 (6 * 60) false
        ⟨exState "S" (some true), 0, 1, 1, 0⟩ = .done lst ∧
      lst.iters ≤ LogSt.iters ⟨exState "S" (some true), 0, 1, 1, 0⟩ + 121 :=
  log_wait_terminates_within_121_iterations
    (fun _ => exState "S" (some true)) (fun _ => false) none false
    ⟨exState "S" (some true), 0, 1, 1, 0⟩ 130 (by norm_num)

/-- For a nonzero timeout, a false guard means more than one poll
interval of headroom remains. -/
theorem timeoutGuard_false_lt (t e : ℚ) (ht : t ≠ 0)
    (h : timeoutGuard (some t) e = false) : e + MAX_LAG < t := by
  simp only [timeoutGuard] at h
  rcases Bool.and_eq_false_iff.mp h with h1 | h2
  · exact absurd (by simpa using h1) ht
  · exact not_le.mp (of_decide_eq_false h2)

/-- The zero timeout is Python-falsy: the guard never fires. -/
theorem timeoutGuard_zero (e : ℚ) : timeoutGuard (some 0) e = false := by
  simp [timeoutGuard]

/-- Main-loop progress under a positive timeout: with enough fuel the
loop always exits (timed out or resolved), and the virtual clock at exit
is still below the timeout — the loop never sleeps past the deadline. -/
theorem waitLoop_pure_pos_timeout (f : Nat → Execution) (bx : Nat → Bool)
    (t : ℚ) (ht : 0 < t) :
    ∀ (fuel : Nat) (st : LoopSt), st.elapsed < t →
      t ≤ st.elapsed + 3 * fuel →
      ∃ st', (waitLoop (pureEnv f bx) (some t) fuel st = .timedOut st' ∨
          waitLoop (pureEnv f bx) (some t) fuel st = .resolved st') ∧
        st'.elapsed < t := by
  intro fuel
  induction fuel with
  | zero =>
    intro st hlt hle
    by_cases hs : st.cur.success.isSome
    · exact ⟨st, Or.inr (waitLoop_resolved_of _ _ _ _ hs), hlt⟩
    · by_cases hg : timeoutGuard (some t) st.elapsed
      · exact ⟨st, Or.inl (waitLoop_timedOut_of _ _ _ _
          (Bool.not_eq_true _ ▸ hs) hg), hlt⟩
      · exfalso
        have h3 := timeoutGuard_false_lt t st.elapsed (ne_of_gt ht)
          (Bool.not_eq_true _ ▸ hg)
        simp only [MAX_LAG] at h3
        push_cast at hle
        linarith
  | succ fuel ih =>
    intro st hlt hle
    by_cases hs : st.cur.success.isSome
    · exact ⟨st, Or.inr (waitLoop_resolved_of _ _ _ _ hs), hlt⟩
    · by_cases hg : timeoutGuard (some t) st.elapsed
      · exact ⟨st, Or.inl (waitLoop_timedOut_of _ _ _ _
          (Bool.not_eq_true _ ▸ hs) hg), hlt⟩
      · have h3 := timeoutGuard_false_lt t st.elapsed (ne_of_gt ht)
          (Bool.not_eq_true _ ▸ hg)
        simp only [MAX_LAG] at h3
        rw [waitLoop_step (pureEnv f bx) (some t) fuel st (f st.nextFetch)
          (Bool.not_eq_true _ ▸ hs) (Bool.not_eq_true _ ▸ hg) rfl]
        apply ih (stepSt st (f st.nextFetch))
        · simpa [stepSt, MAX_LAG] using h3
        · simp only [stepSt, MAX_LAG]
          push_cast at hle ⊢
          linarith

/-- Log-wait-loop progress under a positive timeout: with enough fuel it
reaches `done` with the virtual clock still below the timeout. -/
theorem logLoop_pure_pos_timeout (f : Nat → Execution) (bx : Nat → Bool)
    (t : ℚ) (ht : 0 < t) :
    ∀ (fuel : Nat) (a : ℚ) (filesExist : Bool) (st : LogSt),
      st.elapsed < t → a < 3 * fuel →
      ∃ lst, logLoop (pureEnv f bx) (some t) fuel a filesExist st =
          .done lst ∧ lst.elapsed < t := by
  intro fuel
  induction fuel with
  | zero =>
    intro a fe st hlt ha
    have ha0 : a < 0 := by push_cast at ha; linarith
    exact ⟨st, logLoop_done_exit _ _ _ _ _ _ (by simp [ha0]), hlt⟩
  | succ fuel ih =>
    intro a fe st hlt ha
    by_cases hx : (fe || decide (a < 0)) = true
    · exact ⟨st, logLoop_done_exit _ _ _ _ _ _ hx, hlt⟩
    · by_cases hg : timeoutGuard (some t) st.elapsed
      · exact ⟨st, logLoop_done_timeout _ _ _ _ _ _
          (Bool.not_eq_true _ ▸ hx) hg, hlt⟩
      · have h3 := timeoutGuard_false_lt t st.elapsed (ne_of_gt ht)
          (Bool.not_eq_true _ ▸ hg)
        simp only [MAX_LAG] at h3
        obtain ⟨lst, hdone, hb⟩ := ih (a - MAX_LAG) (bx st.nextExist)
          (logStepSt st (f st.nextFetch))
          (by simpa [logStepSt, MAX_LAG] using h3)
          (by simp only [MAX_LAG]; push_cast at ha ⊢; linarith)
        refine ⟨lst, ?_, hb⟩
        rw [logLoop_step (pureEnv f bx) (some t) fuel a fe st
          (f st.nextFetch) (Bool.not_eq_true _ ▸ hx)
          (Bool.not_eq_true _ ▸ hg) rfl]
        exact hdone

/-- C1 (amended): for every strictly positive timeout t (with fuel
covering t/3 main-loop polls and the 121 log-wait polls),
`wait_until_finished` returns — it never runs out of fuel — and the
virtual clock at return is below t + 3 (in this instant-fetch model it
is in fact below t: no sleep is ever started past the deadline).  For
t = 0 the timeout is Python-falsy and this guarantee fails (see the
counterexample theorem). -/
theorem wait_positive_timeout_returns_within_deadline :
    ∀ (f : Nat → Execution) (bx : Nat → Bool) (t : ℚ) (fuel : Nat),
      0 < t → t ≤ 3 * fuel → 120 < fuel →
      ∃ r, wait_until_finished (pureEnv f bx) (some t) fuel = .ret r ∧
        r.elapsed ≤ t + 3 := by
  intro f bx t fuel ht hfl hfl2
  have hred : wait_until_finished (pureEnv f bx) (some t) fuel =
      afterFetch (pureEnv f bx) (some t) fuel (f 0) := rfl
  obtain ⟨st', hor, hlt⟩ := waitLoop_pure_pos_timeout f bx t ht fuel
    (initSt (f 0)) (by simpa [initSt] using ht)
    (by simpa [initSt] using hfl)
  rcases hor with hw | hw
  · refine ⟨⟨st'.cur, st'.elapsed, st'.elapsed, true, st'.msgs, 0, false,
      st'.nextFetch⟩, ?_, ?_⟩
    · rw [hred]
      simp only [afterFetch, hw]
    · simp only
      linarith
  · have hfq : (121 : ℚ) ≤ (fuel : Nat) := by exact_mod_cast hfl2
    obtain ⟨lst, hdone, hlst⟩ := logLoop_pure_pos_timeout f bx t ht fuel
      (6 * 60) ((pureEnv f bx).bothExist 0)
      ⟨st'.cur, st'.elapsed, st'.nextFetch, 1, 0⟩ hlt (by linarith)
    refine ⟨⟨lst.cur,
      lst.elapsed + (if (!(pureEnv f bx).bothExist 0 &&
        settleCond (some t) lst.elapsed) then 5 else 0), lst.elapsed,
      false, st'.msgs, lst.iters,
      !(pureEnv f bx).bothExist 0 && settleCond (some t) lst.elapsed,
      lst.nextFetch⟩, ?_, ?_⟩
    · rw [hred]
      simp only [afterFetch, hw, afterResolve, hdone]
    · simp only
      by_cases hsettle : (!(pureEnv f bx).bothExist 0 &&
          settleCond (some t) lst.elapsed) = true
      · rcases Bool.and_eq_true_iff.mp hsettle with ⟨-, hsc⟩
        simp only [settleCond] at hsc
        rcases Bool.or_eq_true_iff.mp hsc with h0 | h5
        · exact absurd (by simpa using h0) (ne_of_gt ht)
        · have h5' := of_decide_eq_true h5
          simp only [hsettle, if_true]
          linarith
      · simp only [Bool.not_eq_true] at hsettle
        simp only [hsettle, Bool.false_eq_true, if_false]
        linarith

/-- Witness for C1's amended theorem: timeout 6 with an always-unresolved
fetch returns (through the timeout branch) within 6 + 3 seconds. -/
theorem wait_positive_timeout_returns_within_deadline_witness :
    ∃ r, wait_until_finished envUnresolved (some 6) 130 = .ret r ∧
      r.elapsed ≤ 6 + 3 :=
  wait_positive_timeout_returns_within_deadline (fun _ => exUnresolved)
    (fun _ => false) 6 130 (by norm_num) (by norm_num) (by norm_num)

/-- The main loop under timeout 0 with an always-unresolved fetch never
exits: the guard `if timeout and ...` is falsy at 0. -/
theorem waitLoop_unresolved_zero_timeout :
    ∀ (fuel : Nat) (st : LoopSt), st.cur.success = none →
      ∃ st', waitLoop envUnresolved (some 0) fuel st = .running st' ∧
        st'.cur.success = none := by
  intro fuel
  induction fuel with
  | zero =>
    intro st hs
    exact ⟨st, waitLoop_zero_running _ _ _ (by simp [hs])
      (timeoutGuard_zero _), hs⟩
  | succ fuel ih =>
    intro st hs
    obtain ⟨st', hrun, hs'⟩ := ih (stepSt st exUnresolved) rfl
    exact ⟨st', by
      rw [waitLoop_step envUnresolved (some 0) fuel st exUnresolved
        (by simp [hs]) (timeoutGuard_zero _) rfl]
      exact hrun, hs'⟩

/-- Under timeout 0 with an always-unresolved fetch, every fuel bound is
exhausted: the call is still polling after any number of iterations. -/
theorem wait_unresolved_zero_timeout_fuelOut :
    ∀ fuel : Nat,
      wait_until_finished envUnresolved (some 0) fuel = .fuelOut := by
  intro fuel
  obtain ⟨st', hrun, -⟩ := waitLoop_unresolved_zero_timeout fuel
    (initSt exUnresolved) rfl
  have hred : wait_until_finished envUnresolved (some 0) fuel =
      afterFetch envUnresolved (some 0) fuel exUnresolved := rfl
  rw [hred]
  simp only [afterFetch, hrun]

/-- Counterexample to C1 as stated: the claim asserts the bound for
every T ≥ 0, but at T = 0 Python's `if timeout` treats the timeout as
unset (0.0 is falsy), so with an execution that never resolves the call
is still polling after 120 iterations (virtual elapsed 360 s) and after
100000 iterations (virtual elapsed 300000 s) — it does not return
within 0 + 3 seconds, and blocks indefinitely. -/
theorem wait_zero_timeout_never_returns :
    wait_until_finished envUnresolved (some 0) 120 = .fuelOut ∧
    wait_until_finished envUnresolved (some 0) 100000 = .fuelOut :=
  ⟨wait_unresolved_zero_timeout_fuelOut 120,
    wait_unresolved_zero_timeout_fuelOut 100000⟩

end ExecutionEngine
